import Mathlib

/-!
# ManagedCluster metric families (pkg/collectors/managedcluster.go)

A shallow embedding of `getManagedClusterMetricFamilies` and
`wrapManagedClusterFunc`.  The Go code builds `metric.Family` values whose
`Metrics` field is a slice of *pointers* to `metric.Metric`, and the wrapper
mutates the pointed-to metrics in place.  The embedding therefore carries an
explicit heap of metric objects, together with the log of ClusterDeployment
lookups that have been issued through the dynamic client.
-/

namespace Collectors

/-! ## Go values used by the collector -/

/-- A float64 value.  Every float64 this file produces is an integer (the literal `1`
or a converted int64), so a value is represented by the integer it denotes. -/
abbrev Float64 := Int

/-- Two's-complement wrap-around of int64 arithmetic. -/
def wrapInt64 (x : Int) : Int := (x + 2 ^ 63) % 2 ^ 64 - 2 ^ 63

/-- Go's conversion `float64(x)` of an int64: exact up to 53 significant bits, and
rounded to the nearest representable value (ties to even) beyond that. -/
def float64OfInt64 (x : Int) : Float64 :=
  let n := x.natAbs
  if n < 2 ^ 53 then x
  else
    let e := Nat.log2 n - 52
    let q := n / 2 ^ e
    let r := n % 2 ^ e
    let half := 2 ^ (e - 1)
    let q1 := if half < r ∨ (r = half ∧ q % 2 = 1) then q + 1 else q
    Int.sign x * ((q1 * 2 ^ e : Nat) : Int)

/-- Go's `time.Time` as wrapped by `metav1.Time`, reduced to what `IsZero` and `Unix`
read: the seconds elapsed since January 1 of year 1, 00:00:00 UTC, and the nanoseconds
within that second. -/
structure Time where
  sec : Int
  nsec : Nat
deriving DecidableEq

/-- Seconds between January 1 of year 1 and January 1, 1970 (package `time`). -/
def unixToInternal : Int := (1969 * 365 + 1969 / 4 - 1969 / 100 + 1969 / 400) * 86400

/-- The opposite offset (package `time`). -/
def internalToUnix : Int := -unixToInternal

/-- Method `IsZero` of package `time`: the instant is January 1, year 1, 00:00:00 UTC. -/
def Time.IsZero (t : Time) : Bool := t.sec == 0 && t.nsec == 0

/-- Method `Unix` of package `time`: whole seconds since January 1, 1970 UTC, in int64. -/
def Time.Unix (t : Time) : Int := wrapInt64 (t.sec + internalToUnix)

/-- A Go `map[string]string`; `none` is the nil map. -/
abbrev GoMap := Option (List (String × String))

/-- Go map indexing `m[k]`: the zero value `""` for a nil map or an absent key. -/
def GoMap.index (m : GoMap) (k : String) : String :=
  match m with
  | none => ""
  | some kvs => (kvs.lookup k).getD ""

/-! ## Kubernetes API objects -/

/-- The fields of `metav1.ObjectMeta` the collector reads. -/
structure ObjectMeta where
  Name : String
  CreationTimestamp : Time
  Labels : GoMap
deriving DecidableEq

/-- The type `ManagedClusterVersion` of the cluster API. -/
structure ManagedClusterVersion where
  Kubernetes : String
deriving DecidableEq

/-- The field of `ManagedClusterStatus` the collector reads. -/
structure ManagedClusterStatus where
  Version : ManagedClusterVersion
deriving DecidableEq

/-- A `managedclusterv1.ManagedCluster` object. -/
structure ManagedCluster extends ObjectMeta where
  Status : ManagedClusterStatus
deriving DecidableEq

/-- Method `GetName` of `ObjectMeta`. -/
def ManagedCluster.GetName (mc : ManagedCluster) : String := mc.Name

/-- Method `GetLabels` of `ObjectMeta`. -/
def ManagedCluster.GetLabels (mc : ManagedCluster) : GoMap := mc.Labels

/-- What arrives as `obj interface{}`: a ManagedCluster, or a value of another type. -/
inductive Object where
  | managedCluster (mc : ManagedCluster)
  | other (kind : String)
deriving DecidableEq

/-- The type `schema.GroupVersionResource`. -/
structure GroupVersionResource where
  Group : String
  Version : String
  Resource : String
deriving DecidableEq

/-- The resource of the hive ClusterDeployments. -/
def cdGVR : GroupVersionResource :=
  { Group := "hive.openshift.io", Version := "v1", Resource := "clusterdeployments" }

/-- The reasons of `metav1.StatusReason` that matter here. -/
inductive StatusReason where
  | Unknown
  | Unauthorized
  | Forbidden
  | NotFound
  | Timeout
  | ServerTimeout
  | InternalError
  | ServiceUnavailable
deriving DecidableEq

/-- A non-nil Go `error` returned by the client, with the reason that
`errors.ReasonForError` reads from it (`Unknown` for an error that is no API status,
such as a transport failure). -/
structure GoError where
  reason : StatusReason
  msg : String
deriving DecidableEq

/-- Function `errors.IsNotFound` of apimachinery; `none` is the nil error. -/
def IsNotFound (err : Option GoError) : Bool :=
  match err with
  | none => false
  | some e => e.reason == StatusReason.NotFound

/-- The fetched object (`*unstructured.Unstructured`), by its namespace and name. -/
structure Unstructured where
  Namespace : String
  Name : String
deriving DecidableEq

/-- The pair `(object, err)` returned by `Get`. -/
structure GetResult where
  obj : Option Unstructured
  err : Option GoError
deriving DecidableEq

/-- The `dynamic.Interface` client, reduced to
`client.Resource(gvr).Namespace(ns).Get(ctx, name, opts)`. -/
abbrev Client := GroupVersionResource → String → String → GetResult

/-- One `Get` request issued through the client. -/
structure LookupCall where
  gvr : GroupVersionResource
  ns : String
  name : String
deriving DecidableEq

/-! ## kube-state-metrics types -/

/-- The type `metric.Metric`. -/
structure Metric where
  LabelKeys : List String
  LabelValues : List String
  Value : Float64
deriving DecidableEq

/-- A `*metric.Metric`: nil, or the address of a metric object on the heap. -/
abbrev Ptr := Option Nat

/-- The type `metric.Family`: a slice of pointers to metrics. -/
structure Family where
  Metrics : List Ptr
deriving DecidableEq

/-- The type `metric.Type`. -/
inductive MetricType where
  | Gauge
  | Counter
deriving DecidableEq

/-- The state a generator runs in: the metric objects allocated so far (the address of
an object is its index) and the ClusterDeployment lookups issued so far. -/
structure World where
  heap : List Metric
  calls : List LookupCall
deriving DecidableEq

/-- Allocation `&metric.Metric{...}` of a fresh metric object. -/
def World.alloc (w : World) (m : Metric) : Ptr × World :=
  (some w.heap.length, { w with heap := w.heap ++ [m] })

/-- Dereference of a metric pointer; `none` for nil. -/
def World.deref (w : World) (p : Ptr) : Option Metric :=
  match p with
  | none => none
  | some a => w.heap[a]?

/-- The call `client.Resource(gvr).Namespace(ns).Get(...)`, recorded in the log. -/
def World.get (w : World) (client : Client) (gvr : GroupVersionResource) (ns name : String) :
    GetResult × World :=
  (client gvr ns name, { w with calls := w.calls ++ [{ gvr := gvr, ns := ns, name := name }] })

/-- An inner generator `func(*ManagedCluster) metric.Family`: it may allocate metrics
and call the client. -/
abbrev InnerFunc := ManagedCluster → World → Family × World

/-- A wrapped generator `func(interface{}) metric.Family`; `none` is a panic. -/
abbrev GenerateFunc := Object → World → Option (Family × World)

/-- The type `metric.FamilyGenerator`. -/
structure FamilyGenerator where
  Name : String
  Help : String
  Typ : MetricType
  GenerateFunc : GenerateFunc

/-! ## The collector -/

def descClusterLabelsName : String := "ocm_managedcluster_labels"
def descClusterLabelsHelp : String := "Kubernetes labels converted to Prometheus labels."
def descClusterLabelsDefaultLabels : List String := ["vendor", "cloud", "created_via", "version"]

def descClusterInfoName : String := "ocm_managedcluster_info"
def descClusterInfoHelp : String := "Kubernetes labels converted to Prometheus labels."
def descClusterInfoDefaultLabels : List String := ["vendor", "cloud", "version"]

/-- The loop `for _, m := range metricFamily.Metrics` of `wrapManagedClusterFunc`: each
pointed-to metric gets `"managedcluster"` and the cluster name prepended in place.
A nil pointer panics. -/
def prependLabels (name : String) : List Ptr → List Metric → Option (List Metric)
  | [], heap => some heap
  | none :: _, _ => none
  | some a :: ps, heap =>
    match heap[a]? with
    | none => none
    | some m =>
      prependLabels name ps
        (heap.set a { m with LabelKeys := ["managedcluster"] ++ m.LabelKeys,
                             LabelValues := [name] ++ m.LabelValues })

/-- The function `wrapManagedClusterFunc`. -/
def wrapManagedClusterFunc (f : InnerFunc) : GenerateFunc := fun obj w =>
  match obj with
  | Object.other _ => none
  | Object.managedCluster Cluster =>
    let (metricFamily, w1) := f Cluster w
    match prependLabels Cluster.Name metricFamily.Metrics w1.heap with
    | none => none
    | some heap => some (metricFamily, { w1 with heap := heap })

/-- The inner generator of `ocm_managedcluster_created`. -/
def createdFunc : InnerFunc := fun mc w =>
  if !mc.CreationTimestamp.IsZero then
    let (p, w1) := w.alloc
      { LabelKeys := [], LabelValues := [], Value := float64OfInt64 mc.CreationTimestamp.Unix }
    ({ Metrics := [p] }, w1)
  else
    ({ Metrics := [] }, w)

/-- The inner generator of `ocm_managedcluster_labels`. -/
def labelsFunc (client : Client) : InnerFunc := fun mc w =>
  let createdVia := "hive"
  let (r, w1) := w.get client cdGVR mc.GetName mc.GetName
  let createdVia := if IsNotFound r.err then "imported" else createdVia
  let labels := mc.GetLabels
  let labelsValues := [labels.index "vendor", labels.index "cloud", createdVia,
    mc.Status.Version.Kubernetes]
  let (p, w2) := w1.alloc
    { LabelKeys := descClusterLabelsDefaultLabels, LabelValues := labelsValues, Value := 1 }
  ({ Metrics := [p] }, w2)

/-- The inner generator of `ocm_managedcluster_info`. -/
def infoFunc : InnerFunc := fun mc w =>
  let labels := mc.GetLabels
  let labelsValues := [labels.index "vendor", labels.index "cloud", mc.Status.Version.Kubernetes]
  let (p, w1) := w.alloc
    { LabelKeys := descClusterInfoDefaultLabels, LabelValues := labelsValues, Value := 1 }
  ({ Metrics := [p] }, w1)

/-- The function `getManagedClusterMetricFamilies`. -/
def getManagedClusterMetricFamilies (client : Client) : List FamilyGenerator :=
  [ { Name := "ocm_managedcluster_created",
      Typ := MetricType.Gauge,
      Help := "Unix creation timestamp",
      GenerateFunc := wrapManagedClusterFunc createdFunc },
    { Name := descClusterLabelsName,
      Typ := MetricType.Gauge,
      Help := descClusterLabelsHelp,
      GenerateFunc := wrapManagedClusterFunc (labelsFunc client) },
    { Name := descClusterInfoName,
      Typ := MetricType.Gauge,
      Help := "Kubernetes labels converted to Prometheus labels.",
      GenerateFunc := wrapManagedClusterFunc infoFunc } ]

/-! ## Observing the output of a generator -/

/-- The samples a family holds: its pointers dereferenced in order (`none` if one of
them is nil or dangling). -/
def samplesOf (w : World) : List Ptr → Option (List Metric)
  | [] => some []
  | p :: ps =>
    match w.deref p, samplesOf w ps with
    | some m, some ms => some (m :: ms)
    | _, _ => none

/-- The samples a wrapped generator emits for an object, read when it returns. -/
def emitted (g : GenerateFunc) (obj : Object) (w : World) : Option (List Metric) :=
  match g obj w with
  | none => none
  | some (fam, w1) => samplesOf w1 fam.Metrics

/-- The lookups a wrapped generator has added to the log when it returns. -/
def lookupsOf (g : GenerateFunc) (obj : Object) (w : World) : Option (List LookupCall) :=
  match g obj w with
  | none => none
  | some (_, w1) => some (w1.calls.drop w.calls.length)

/-- The driver of kube-state-metrics (`ComposeMetricGenFuncs`): the generators are
called on the object one after the other, each in the state the previous one left. -/
def generateInOrder : List FamilyGenerator → Object → World → Option (List Family × World)
  | [], _, w => some ([], w)
  | g :: gs, obj, w =>
    match g.GenerateFunc obj w with
    | none => none
    | some (fam, w1) =>
      match generateInOrder gs obj w1 with
      | none => none
      | some (fams, w2) => some (fam :: fams, w2)

/-- What one pass of the loop of `wrapManagedClusterFunc` does to a metric. -/
def withIdentity (name : String) (m : Metric) : Metric :=
  { m with LabelKeys := ["managedcluster"] ++ m.LabelKeys,
           LabelValues := [name] ++ m.LabelValues }

/-- The sample of the created family for a cluster with a non-zero timestamp. -/
def createdSample (mc : ManagedCluster) : Metric :=
  { LabelKeys := ["managedcluster"], LabelValues := [mc.Name],
    Value := float64OfInt64 mc.CreationTimestamp.Unix }

/-- The sample of the labels family, given the value of `created_via`. -/
def labelsSample (mc : ManagedCluster) (createdVia : String) : Metric :=
  { LabelKeys := ["managedcluster", "vendor", "cloud", "created_via", "version"],
    LabelValues := [mc.Name, mc.Labels.index "vendor", mc.Labels.index "cloud", createdVia,
      mc.Status.Version.Kubernetes],
    Value := 1 }

/-- The sample of the info family. -/
def infoSample (mc : ManagedCluster) : Metric :=
  { LabelKeys := ["managedcluster", "vendor", "cloud", "version"],
    LabelValues := [mc.Name, mc.Labels.index "vendor", mc.Labels.index "cloud",
      mc.Status.Version.Kubernetes],
    Value := 1 }

/-! ## Concrete inputs -/

/-- A world with no metric allocated and no lookup issued. -/
def emptyWorld : World := { heap := [], calls := [] }

/-- The cluster `c1` of the end-to-end example, created on 2022-11-02 00:00:00 UTC. -/
def exampleCluster : ManagedCluster :=
  { Name := "c1",
    CreationTimestamp := { sec := 63802944000, nsec := 0 },
    Labels := some [("vendor", "aws"), ("cloud", "public")],
    Status := { Version := { Kubernetes := "1.25" } } }

/-- A cluster with a zero creation timestamp, a nil label map and no reported version. -/
def bareCluster : ManagedCluster :=
  { Name := "c2",
    CreationTimestamp := { sec := 0, nsec := 0 },
    Labels := none,
    Status := { Version := { Kubernetes := "" } } }

/-- A client for which every ClusterDeployment exists. -/
def hiveClient : Client := fun _ ns name =>
  { obj := some { Namespace := ns, Name := name }, err := none }

/-- A client for which no ClusterDeployment exists. -/
def notFoundClient : Client := fun _ _ _ =>
  { obj := none, err := some { reason := StatusReason.NotFound, msg := "not found" } }

/-- A client that is denied access to ClusterDeployments. -/
def forbiddenClient : Client := fun _ _ _ =>
  { obj := none, err := some { reason := StatusReason.Forbidden, msg := "forbidden" } }

/-- An inner generator that returns one fresh metric with one label. -/
def plainFunc : InnerFunc := fun _ w =>
  let (p, w1) := w.alloc { LabelKeys := ["k"], LabelValues := ["v"], Value := 7 }
  ({ Metrics := [p] }, w1)

/-- An inner generator that returns a nil metric pointer. -/
def nilFunc : InnerFunc := fun _ w => ({ Metrics := [none] }, w)

/-- An inner generator that returns the same metric pointer twice. -/
def sharedFunc : InnerFunc := fun _ w =>
  let (p, w1) := w.alloc { LabelKeys := ["k"], LabelValues := ["v"], Value := 7 }
  ({ Metrics := [p, p] }, w1)

/-! ## The loop of the wrapper -/

theorem withIdentity_iterate_keys (name : String) (k : Nat) (m : Metric) :
    ((withIdentity name)^[k] m).LabelKeys = List.replicate k "managedcluster" ++ m.LabelKeys := by
  induction k generalizing m with
  | zero => simp
  | succ k ih =>
    rw [Function.iterate_succ_apply, ih]
    simp [withIdentity, List.replicate_succ', List.append_assoc]

theorem withIdentity_iterate_values (name : String) (k : Nat) (m : Metric) :
    ((withIdentity name)^[k] m).LabelValues = List.replicate k name ++ m.LabelValues := by
  induction k generalizing m with
  | zero => simp
  | succ k ih =>
    rw [Function.iterate_succ_apply, ih]
    simp [withIdentity, List.replicate_succ', List.append_assoc]

/-- The loop leaves the heap with every object at address `b` prefixed once for each
occurrence of `b` among the pointers. -/
theorem prependLabels_spec (name : String) :
    ∀ (ps : List Ptr) (heap heap1 : List Metric), prependLabels name ps heap = some heap1 →
      ∀ b : Nat, heap1[b]? = (heap[b]?).map ((withIdentity name)^[ps.count (some b)]) := by
  intro ps
  induction ps with
  | nil =>
    intro heap heap1 h b
    simp [prependLabels] at h
    subst h
    simp
  | cons p ps ih =>
    intro heap heap1 h b
    cases p with
    | none =>
      simp [prependLabels] at h
    | some a =>
      simp only [prependLabels] at h
      cases hm : heap[a]? with
      | none => simp [hm] at h
      | some m =>
        simp only [hm] at h
        have key := ih _ _ h b
        rw [key]
        by_cases hab : a = b
        · subst hab
          have hlt : a < heap.length := by
            rcases List.getElem?_eq_some.1 hm with ⟨hl, _⟩
            exact hl
          simp [List.getElem?_set, hlt, hm, withIdentity, Function.iterate_succ_apply]
        · have hne : (some a : Ptr) ≠ some b := by
            intro hh
            exact hab (Option.some.inj hh)
          simp [List.getElem?_set, hab, List.count_cons, hne]

/-- The loop succeeds when every pointer is the address of an allocated metric. -/
theorem prependLabels_isSome (name : String) :
    ∀ (ps : List Ptr) (heap : List Metric),
      (∀ p ∈ ps, ∃ a, p = some a ∧ a < heap.length) →
      ∃ heap1, prependLabels name ps heap = some heap1 := by
  intro ps
  induction ps with
  | nil =>
    intro heap _
    exact ⟨heap, rfl⟩
  | cons p ps ih =>
    intro heap h
    obtain ⟨a, rfl, ha⟩ := h p (List.mem_cons_self _ _)
    have hm : heap[a]? = some heap[a] := List.getElem?_eq_getElem ha
    simp only [prependLabels, hm]
    apply ih
    intro q hq
    obtain ⟨c, rfl, hc⟩ := h q (List.mem_cons_of_mem _ hq)
    exact ⟨c, rfl, by simpa using hc⟩

/-! ## Reading the samples of a family -/

theorem samplesOf_eq_some_iff (w : World) :
    ∀ (ps : List Ptr) (ms : List Metric),
      samplesOf w ps = some ms ↔ ps.map w.deref = ms.map some := by
  intro ps
  induction ps with
  | nil =>
    intro ms
    cases ms <;> simp [samplesOf]
  | cons p ps ih =>
    intro ms
    cases hd : w.deref p with
    | none =>
      cases ms <;> simp [samplesOf, hd]
    | some m =>
      cases hs : samplesOf w ps with
      | none =>
        cases ms with
        | nil => simp [samplesOf, hd, hs]
        | cons m1 ms1 =>
          have hn : ¬ (ps.map w.deref = ms1.map some) := by
            intro hh
            have := (ih ms1).2 hh
            simp [hs] at this
          simp [samplesOf, hd, hs, hn]
      | some ms0 =>
        have h0 := (ih ms0).1 hs
        cases ms with
        | nil => simp [samplesOf, hd, hs]
        | cons m1 ms1 =>
          simp only [samplesOf, hd, hs, List.map_cons, Option.some.injEq, List.cons.injEq, h0]
          constructor
          · rintro ⟨rfl, rfl⟩
            exact ⟨rfl, rfl⟩
          · rintro ⟨rfl, h2⟩
            have : ms0 = ms1 := by
              have hinj : Function.Injective (some : Metric → Option Metric) :=
                fun _ _ h => Option.some.inj h
              exact (List.map_injective_iff.2 hinj) h2
            exact ⟨rfl, this⟩

/-- Every sample read from a family sits behind one of its pointers. -/
theorem samplesOf_mem (w : World) (ps : List Ptr) (ms : List Metric)
    (h : samplesOf w ps = some ms) (m : Metric) (hm : m ∈ ms) :
    ∃ a, some a ∈ ps ∧ w.heap[a]? = some m := by
  have h1 := (samplesOf_eq_some_iff w ps ms).1 h
  have h2 : some m ∈ ms.map some := List.mem_map.2 ⟨m, hm, rfl⟩
  rw [← h1] at h2
  obtain ⟨p, hp, hd⟩ := List.mem_map.1 h2
  cases p with
  | none => simp [World.deref] at hd
  | some a => exact ⟨a, hp, by simpa [World.deref] using hd⟩

/-- What the wrapper returns, in terms of the inner generator and the loop. -/
theorem wrapManagedClusterFunc_eq_some (f : InnerFunc) (mc : ManagedCluster) (w : World)
    (fam : Family) (w2 : World)
    (h : wrapManagedClusterFunc f (Object.managedCluster mc) w = some (fam, w2)) :
    fam = (f mc w).1 ∧ w2.calls = (f mc w).2.calls ∧
      prependLabels mc.Name (f mc w).1.Metrics (f mc w).2.heap = some w2.heap := by
  simp only [wrapManagedClusterFunc] at h
  cases hp : prependLabels mc.Name (f mc w).1.Metrics (f mc w).2.heap with
  | none => simp [hp] at h
  | some heap1 =>
    simp only [hp, Option.some.injEq, Prod.mk.injEq] at h
    obtain ⟨h1, h2⟩ := h
    subst h1
    subst h2
    exact ⟨rfl, rfl, rfl⟩

/-- Every sample the wrapper emits is a metric of the inner generator with the identity
label put in front at least once. -/
theorem wrap_sample (f : InnerFunc) (mc : ManagedCluster) (w : World) (ms : List Metric)
    (h : emitted (wrapManagedClusterFunc f) (Object.managedCluster mc) w = some ms)
    (m : Metric) (hm : m ∈ ms) :
    ∃ a m0 k, some a ∈ (f mc w).1.Metrics ∧ (f mc w).2.heap[a]? = some m0 ∧
      m = (withIdentity mc.Name)^[k + 1] m0 := by
  simp only [emitted] at h
  cases hw : wrapManagedClusterFunc f (Object.managedCluster mc) w with
  | none => simp [hw] at h
  | some r =>
    obtain ⟨fam, w2⟩ := r
    simp only [hw] at h
    obtain ⟨hfam, _, hloop⟩ := wrapManagedClusterFunc_eq_some f mc w fam w2 hw
    obtain ⟨a, ha, hget⟩ := samplesOf_mem w2 fam.Metrics ms h m hm
    rw [hfam] at ha
    have hspec := prependLabels_spec mc.Name _ _ _ hloop a
    rw [hget] at hspec
    cases h0 : (f mc w).2.heap[a]? with
    | none => simp [h0] at hspec
    | some m0 =>
      have hpos : 0 < List.count (some a) (f mc w).1.Metrics := List.count_pos_iff.2 ha
      obtain ⟨k, hk⟩ := Nat.exists_eq_succ_of_ne_zero (Nat.pos_iff_ne_zero.1 hpos)
      refine ⟨a, m0, k, ha, h0, ?_⟩
      rw [h0, hk] at hspec
      simpa using hspec

/-! ## The three generators, evaluated -/

theorem samplesOf_fresh (heap : List Metric) (m : Metric) (calls : List LookupCall) :
    samplesOf { heap := heap ++ [m], calls := calls } [some heap.length] = some [m] := by
  simp [samplesOf, World.deref]

theorem wrap_createdFunc_zero (mc : ManagedCluster) (w : World)
    (h : mc.CreationTimestamp.IsZero = true) :
    wrapManagedClusterFunc createdFunc (Object.managedCluster mc) w = some ({ Metrics := [] }, w) := by
  simp [wrapManagedClusterFunc, createdFunc, h, prependLabels]

theorem wrap_createdFunc_nonzero (mc : ManagedCluster) (w : World)
    (h : mc.CreationTimestamp.IsZero = false) :
    wrapManagedClusterFunc createdFunc (Object.managedCluster mc) w =
      some ({ Metrics := [some w.heap.length] },
        { heap := w.heap ++ [createdSample mc], calls := w.calls }) := by
  simp [wrapManagedClusterFunc, createdFunc, h, World.alloc, prependLabels, createdSample]

theorem wrap_labelsFunc (client : Client) (mc : ManagedCluster) (w : World) :
    wrapManagedClusterFunc (labelsFunc client) (Object.managedCluster mc) w =
      some ({ Metrics := [some w.heap.length] },
        { heap := w.heap ++ [labelsSample mc
            (if IsNotFound (client cdGVR mc.Name mc.Name).err then "imported" else "hive")],
          calls := w.calls ++ [{ gvr := cdGVR, ns := mc.Name, name := mc.Name }] }) := by
  simp [wrapManagedClusterFunc, labelsFunc, World.alloc, World.get, prependLabels, labelsSample,
    ManagedCluster.GetName, ManagedCluster.GetLabels, descClusterLabelsDefaultLabels]

theorem wrap_infoFunc (mc : ManagedCluster) (w : World) :
    wrapManagedClusterFunc infoFunc (Object.managedCluster mc) w =
      some ({ Metrics := [some w.heap.length] },
        { heap := w.heap ++ [infoSample mc], calls := w.calls }) := by
  simp [wrapManagedClusterFunc, infoFunc, World.alloc, prependLabels, infoSample,
    ManagedCluster.GetLabels, descClusterInfoDefaultLabels]

theorem emitted_created (mc : ManagedCluster) (w : World) :
    emitted (wrapManagedClusterFunc createdFunc) (Object.managedCluster mc) w =
      some (if mc.CreationTimestamp.IsZero = true then [] else [createdSample mc]) := by
  cases h : mc.CreationTimestamp.IsZero with
  | true => simp [emitted, wrap_createdFunc_zero mc w h, samplesOf]
  | false => simp [emitted, wrap_createdFunc_nonzero mc w h, samplesOf_fresh]

theorem emitted_labels (client : Client) (mc : ManagedCluster) (w : World) :
    emitted (wrapManagedClusterFunc (labelsFunc client)) (Object.managedCluster mc) w =
      some [labelsSample mc
        (if IsNotFound (client cdGVR mc.Name mc.Name).err then "imported" else "hive")] := by
  simp [emitted, wrap_labelsFunc, samplesOf_fresh]

theorem emitted_info (mc : ManagedCluster) (w : World) :
    emitted (wrapManagedClusterFunc infoFunc) (Object.managedCluster mc) w =
      some [infoSample mc] := by
  simp [emitted, wrap_infoFunc, samplesOf_fresh]

/-- The conversion to float64 is exact on integers of fewer than 54 bits, which covers
the epoch seconds of every date that RFC 3339 can write. -/
theorem float64OfInt64_exact (x : Int) (h : x.natAbs < 2 ^ 53) : float64OfInt64 x = x := by
  unfold float64OfInt64
  exact if_pos h

/-- The three generators return on every ManagedCluster object. -/
theorem families_emit (client : Client) (mc : ManagedCluster) (w : World) :
    ∀ g ∈ getManagedClusterMetricFamilies client,
      ∃ ms, emitted g.GenerateFunc (Object.managedCluster mc) w = some ms := by
  intro g hg
  simp only [getManagedClusterMetricFamilies, List.mem_cons, List.mem_singleton,
    List.not_mem_nil, or_false] at hg
  rcases hg with rfl | rfl | rfl
  · exact ⟨_, emitted_created mc w⟩
  · exact ⟨_, emitted_labels client mc w⟩
  · exact ⟨_, emitted_info mc w⟩

/-- All three generators are wrapped inner generators. -/
theorem families_wrapped (client : Client) :
    ∀ g ∈ getManagedClusterMetricFamilies client,
      ∃ f : InnerFunc, g.GenerateFunc = wrapManagedClusterFunc f := by
  intro g hg
  simp only [getManagedClusterMetricFamilies, List.mem_cons, List.mem_singleton,
    List.not_mem_nil, or_false] at hg
  rcases hg with rfl | rfl | rfl
  · exact ⟨createdFunc, rfl⟩
  · exact ⟨labelsFunc client, rfl⟩
  · exact ⟨infoFunc, rfl⟩

/-- If every pointer is the address of an allocated metric, the samples can be read. -/
theorem samplesOf_isSome (w : World) :
    ∀ ps : List Ptr, (∀ p ∈ ps, ∃ a, p = some a ∧ a < w.heap.length) →
      ∃ ms, samplesOf w ps = some ms := by
  intro ps
  induction ps with
  | nil =>
    intro _
    exact ⟨[], rfl⟩
  | cons p ps ih =>
    intro h
    obtain ⟨a, rfl, ha⟩ := h p (List.mem_cons_self _ _)
    obtain ⟨ms, hms⟩ := ih (fun q hq => h q (List.mem_cons_of_mem _ hq))
    refine ⟨w.heap[a] :: ms, ?_⟩
    simp [samplesOf, World.deref, hms, List.getElem?_eq_getElem ha]

/-- Indexing a label map by a key it does not hold gives the empty string. -/
theorem GoMap.index_absent (m : GoMap) (k : String)
    (h : ∀ kvs, m = some kvs → ∀ v, (k, v) ∉ kvs) : m.index k = "" := by
  cases m with
  | none => rfl
  | some kvs =>
    have h1 := h kvs rfl
    have h2 : kvs.lookup k = none := by
      induction kvs with
      | nil => rfl
      | cons kv kvs ih =>
        obtain ⟨k1, v1⟩ := kv
        have hne : ¬ (k = k1) := by
          intro hk
          exact h1 v1 (by simp [hk])
        have hb : (k == k1) = false := by simpa using hne
        rw [List.lookup_cons, hb]
        apply ih
        · intro kvs1 hk v hv
          have : kvs1 = kvs := by
            simpa using hk.symm
          subst this
          exact h1 v (List.mem_cons_of_mem _ hv)
        · intro v hv
          exact h1 v (List.mem_cons_of_mem _ hv)
    simp [GoMap.index, h2]

/-! ## The claims -/

/-- C1: for every ManagedCluster, the generator of `ocm_managedcluster_created` emits no
sample when the creation timestamp is zero, and otherwise exactly one sample, whose value
is the float64 of the creation timestamp in whole seconds since the Unix epoch (the
integer itself whenever it has fewer than 54 bits). -/
theorem created_family_samples (client : Client) (mc : ManagedCluster) (w : World) :
    ∃ g, (getManagedClusterMetricFamilies client)[0]? = some g ∧
      g.Name = "ocm_managedcluster_created" ∧
      emitted g.GenerateFunc (Object.managedCluster mc) w =
        some (if mc.CreationTimestamp.IsZero = true then []
          else [{ LabelKeys := ["managedcluster"], LabelValues := [mc.Name],
                  Value := float64OfInt64 mc.CreationTimestamp.Unix }]) ∧
      (mc.CreationTimestamp.Unix.natAbs < 2 ^ 53 →
        float64OfInt64 mc.CreationTimestamp.Unix = mc.CreationTimestamp.Unix) :=
  ⟨_, rfl, rfl, emitted_created mc w, float64OfInt64_exact _⟩

/-- C1, on the example cluster and on the cluster without a creation timestamp. -/
theorem created_family_samples_witness :
    (emitted (wrapManagedClusterFunc createdFunc) (Object.managedCluster exampleCluster)
        emptyWorld =
      some [{ LabelKeys := ["managedcluster"], LabelValues := ["c1"], Value := 1667347200 }]) ∧
    (emitted (wrapManagedClusterFunc createdFunc) (Object.managedCluster bareCluster)
        emptyWorld = some []) ∧
    float64OfInt64 exampleCluster.CreationTimestamp.Unix = 1667347200 := by
  obtain ⟨g, hg, _, _, hx⟩ := created_family_samples notFoundClient exampleCluster emptyWorld
  exact ⟨by decide, by decide, (hx (by decide)).trans (by decide)⟩

/-- C3: the labels generator looks up the ClusterDeployment named like the cluster in
the namespace named like the cluster, once; `created_via` is `hive` when that lookup
succeeds and `imported` when it reports not-found. -/
theorem labels_created_via (client : Client) (mc : ManagedCluster) (w : World) :
    ∃ g, (getManagedClusterMetricFamilies client)[1]? = some g ∧
      g.Name = "ocm_managedcluster_labels" ∧
      lookupsOf g.GenerateFunc (Object.managedCluster mc) w =
        some [{ gvr := cdGVR, ns := mc.Name, name := mc.Name }] ∧
      ((client cdGVR mc.Name mc.Name).err = none →
        ∃ m, emitted g.GenerateFunc (Object.managedCluster mc) w = some [m] ∧
          m.LabelKeys[3]? = some "created_via" ∧ m.LabelValues[3]? = some "hive") ∧
      (IsNotFound (client cdGVR mc.Name mc.Name).err = true →
        ∃ m, emitted g.GenerateFunc (Object.managedCluster mc) w = some [m] ∧
          m.LabelKeys[3]? = some "created_via" ∧ m.LabelValues[3]? = some "imported") := by
  refine ⟨_, rfl, rfl, ?_, ?_, ?_⟩
  · show lookupsOf (wrapManagedClusterFunc (labelsFunc client)) _ _ = _
    simp [lookupsOf, wrap_labelsFunc]
  · intro h
    exact ⟨_, emitted_labels client mc w, by simp [labelsSample], by simp [labelsSample, h, IsNotFound]⟩
  · intro h
    exact ⟨_, emitted_labels client mc w, by simp [labelsSample], by simp [labelsSample, h]⟩

/-- C3, on the example cluster with its ClusterDeployment present and absent. -/
theorem labels_created_via_witness :
    (hiveClient cdGVR "c1" "c1").err = none ∧
    IsNotFound (notFoundClient cdGVR "c1" "c1").err = true ∧
    (∃ m, emitted (wrapManagedClusterFunc (labelsFunc hiveClient))
        (Object.managedCluster exampleCluster) emptyWorld = some [m] ∧
      m.LabelKeys[3]? = some "created_via" ∧ m.LabelValues[3]? = some "hive") ∧
    (∃ m, emitted (wrapManagedClusterFunc (labelsFunc notFoundClient))
        (Object.managedCluster exampleCluster) emptyWorld = some [m] ∧
      m.LabelKeys[3]? = some "created_via" ∧ m.LabelValues[3]? = some "imported") := by
  obtain ⟨g1, hg1, _, _, hhive, _⟩ := labels_created_via hiveClient exampleCluster emptyWorld
  obtain ⟨g2, hg2, _, _, _, himp⟩ := labels_created_via notFoundClient exampleCluster emptyWorld
  have e1 : g1 = _ := (Option.some.inj hg1).symm
  have e2 : g2 = _ := (Option.some.inj hg2).symm
  subst e1
  subst e2
  exact ⟨rfl, rfl, hhive rfl, himp rfl⟩

/-- C4 (as amended): when the ClusterDeployment lookup fails with an error other than
not-found, the labels generator does not propagate the failure: it still emits exactly
one sample for the cluster, whose `created_via` is `hive`. -/
theorem labels_lookup_error (client : Client) (mc : ManagedCluster) (w : World) (e : GoError)
    (herr : (client cdGVR mc.Name mc.Name).err = some e)
    (hnf : IsNotFound (some e) = false) :
    ∃ g, (getManagedClusterMetricFamilies client)[1]? = some g ∧
      g.Name = "ocm_managedcluster_labels" ∧
      emitted g.GenerateFunc (Object.managedCluster mc) w =
        some [{ LabelKeys := ["managedcluster", "vendor", "cloud", "created_via", "version"],
                LabelValues := [mc.Name, mc.Labels.index "vendor", mc.Labels.index "cloud",
                  "hive", mc.Status.Version.Kubernetes],
                Value := 1 }] := by
  refine ⟨_, rfl, rfl, ?_⟩
  show emitted (wrapManagedClusterFunc (labelsFunc client)) _ _ = _
  rw [emitted_labels, herr, hnf]
  rfl

/-- C4 as amended, on the example cluster with a client that is denied access. -/
theorem labels_lookup_error_witness :
    ∃ g, (getManagedClusterMetricFamilies forbiddenClient)[1]? = some g ∧
      g.Name = "ocm_managedcluster_labels" ∧
      emitted g.GenerateFunc (Object.managedCluster exampleCluster) emptyWorld =
        some [{ LabelKeys := ["managedcluster", "vendor", "cloud", "created_via", "version"],
                LabelValues := ["c1", "aws", "public", "hive", "1.25"],
                Value := 1 }] :=
  labels_lookup_error forbiddenClient exampleCluster emptyWorld
    { reason := StatusReason.Forbidden, msg := "forbidden" } rfl rfl

/-- C4 as stated fails: with a client that is denied access (an error that is not
not-found), the labels generator emits a sample for the example cluster, classified
`hive`, instead of emitting none. -/
theorem labels_lookup_error_emits_sample :
    (forbiddenClient cdGVR "c1" "c1").err ≠ none ∧
    IsNotFound (forbiddenClient cdGVR "c1" "c1").err = false ∧
    emitted (wrapManagedClusterFunc (labelsFunc forbiddenClient))
        (Object.managedCluster exampleCluster) emptyWorld =
      some [{ LabelKeys := ["managedcluster", "vendor", "cloud", "created_via", "version"],
              LabelValues := ["c1", "aws", "public", "hive", "1.25"],
              Value := 1 }] ∧
    ¬ (∀ (client : Client) (mc : ManagedCluster) (w : World),
        (client cdGVR mc.Name mc.Name).err ≠ none →
        IsNotFound (client cdGVR mc.Name mc.Name).err = false →
        ∀ ms, emitted (wrapManagedClusterFunc (labelsFunc client))
            (Object.managedCluster mc) w = some ms → ms = []) := by
  refine ⟨by decide, by decide, by decide, ?_⟩
  intro h
  have h1 := h forbiddenClient exampleCluster emptyWorld (by decide) (by decide) _
    (emitted_labels forbiddenClient exampleCluster emptyWorld)
  simp at h1

/-- C5: for every ManagedCluster and every lookup outcome, the labels generator emits
exactly one sample, with value 1, the keys managedcluster, vendor, cloud, created_via,
version and the values name, `labels["vendor"]`, `labels["cloud"]`, the classification
(`hive` or `imported`) and the reported Kubernetes version; a key absent from the label
map (nil map included) contributes the empty string. -/
theorem labels_family_sample (client : Client) (mc : ManagedCluster) (w : World) :
    ∃ g c, (getManagedClusterMetricFamilies client)[1]? = some g ∧
      g.Name = "ocm_managedcluster_labels" ∧
      (c = "hive" ∨ c = "imported") ∧
      emitted g.GenerateFunc (Object.managedCluster mc) w =
        some [{ LabelKeys := ["managedcluster", "vendor", "cloud", "created_via", "version"],
                LabelValues := [mc.Name, mc.Labels.index "vendor", mc.Labels.index "cloud", c,
                  mc.Status.Version.Kubernetes],
                Value := 1 }] ∧
      (∀ k, (∀ kvs, mc.Labels = some kvs → ∀ v, (k, v) ∉ kvs) → mc.Labels.index k = "") := by
  refine ⟨_, if IsNotFound (client cdGVR mc.Name mc.Name).err then "imported" else "hive",
    rfl, rfl, ?_, ?_, ?_⟩
  · by_cases h : IsNotFound (client cdGVR mc.Name mc.Name).err = true
    · simp [h]
    · simp [h]
  · exact emitted_labels client mc w
  · intro k hk
    exact GoMap.index_absent mc.Labels k hk

/-- C5, on the cluster with a nil label map. -/
theorem labels_family_sample_witness :
    emitted (wrapManagedClusterFunc (labelsFunc notFoundClient))
        (Object.managedCluster bareCluster) emptyWorld =
      some [{ LabelKeys := ["managedcluster", "vendor", "cloud", "created_via", "version"],
              LabelValues := ["c2", "", "", "imported", ""],
              Value := 1 }] ∧
    bareCluster.Labels.index "vendor" = "" := by
  obtain ⟨g, c, _, _, _, _, habs⟩ := labels_family_sample notFoundClient bareCluster emptyWorld
  exact ⟨by decide, habs "vendor" (by intro kvs hk; simp [bareCluster] at hk)⟩

/-- C6: for every ManagedCluster, the info generator emits exactly one sample, with value
1, the keys managedcluster, vendor, cloud, version and the values name,
`labels["vendor"]`, `labels["cloud"]` and the reported Kubernetes version (an absent key
giving the empty string); it issues no ClusterDeployment lookup, and what it returns is the
same for every client. -/
theorem info_family_sample (client : Client) (mc : ManagedCluster) (w : World) :
    ∃ g, (getManagedClusterMetricFamilies client)[2]? = some g ∧
      g.Name = "ocm_managedcluster_info" ∧
      emitted g.GenerateFunc (Object.managedCluster mc) w =
        some [{ LabelKeys := ["managedcluster", "vendor", "cloud", "version"],
                LabelValues := [mc.Name, mc.Labels.index "vendor", mc.Labels.index "cloud",
                  mc.Status.Version.Kubernetes],
                Value := 1 }] ∧
      lookupsOf g.GenerateFunc (Object.managedCluster mc) w = some [] ∧
      (∀ client2 : Client, ∃ g2, (getManagedClusterMetricFamilies client2)[2]? = some g2 ∧
        g2.GenerateFunc (Object.managedCluster mc) w =
          g.GenerateFunc (Object.managedCluster mc) w) ∧
      (∀ k, (∀ kvs, mc.Labels = some kvs → ∀ v, (k, v) ∉ kvs) → mc.Labels.index k = "") := by
  refine ⟨_, rfl, rfl, emitted_info mc w, ?_, ?_, ?_⟩
  · show lookupsOf (wrapManagedClusterFunc infoFunc) _ _ = _
    simp [lookupsOf, wrap_infoFunc]
  · intro client2
    exact ⟨_, rfl, rfl⟩
  · intro k hk
    exact GoMap.index_absent mc.Labels k hk

/-- C6, on the cluster with a nil label map and a client that is denied access. -/
theorem info_family_sample_witness :
    emitted (wrapManagedClusterFunc infoFunc) (Object.managedCluster bareCluster) emptyWorld =
      some [{ LabelKeys := ["managedcluster", "vendor", "cloud", "version"],
              LabelValues := ["c2", "", "", ""],
              Value := 1 }] ∧
    bareCluster.Labels.index "cloud" = "" := by
  obtain ⟨g, _, _, _, _, _, habs⟩ := info_family_sample forbiddenClient bareCluster emptyWorld
  exact ⟨by decide, habs "cloud" (by intro kvs hk; simp [bareCluster] at hk)⟩

/-- C8: for every client, `getManagedClusterMetricFamilies` returns exactly three
descriptors, named `ocm_managedcluster_created`, `ocm_managedcluster_labels` and
`ocm_managedcluster_info` in this order, each a gauge; and for every cluster and lookup
outcome, every sample of a family carries exactly the label keys of its row. -/
theorem family_descriptors (client : Client) :
    ∃ g0 g1 g2, getManagedClusterMetricFamilies client = [g0, g1, g2] ∧
      (g0.Name = "ocm_managedcluster_created" ∧ g0.Typ = MetricType.Gauge) ∧
      (g1.Name = "ocm_managedcluster_labels" ∧ g1.Typ = MetricType.Gauge) ∧
      (g2.Name = "ocm_managedcluster_info" ∧ g2.Typ = MetricType.Gauge) ∧
      ∀ (mc : ManagedCluster) (w : World),
        (∃ ms, emitted g0.GenerateFunc (Object.managedCluster mc) w = some ms ∧
          ∀ m ∈ ms, m.LabelKeys = ["managedcluster"]) ∧
        (∃ ms, emitted g1.GenerateFunc (Object.managedCluster mc) w = some ms ∧
          ∀ m ∈ ms, m.LabelKeys =
            ["managedcluster", "vendor", "cloud", "created_via", "version"]) ∧
        (∃ ms, emitted g2.GenerateFunc (Object.managedCluster mc) w = some ms ∧
          ∀ m ∈ ms, m.LabelKeys = ["managedcluster", "vendor", "cloud", "version"]) := by
  refine ⟨_, _, _, rfl, ⟨rfl, rfl⟩, ⟨rfl, rfl⟩, ⟨rfl, rfl⟩, ?_⟩
  intro mc w
  refine ⟨⟨_, emitted_created mc w, ?_⟩, ⟨_, emitted_labels client mc w, ?_⟩,
    ⟨_, emitted_info mc w, ?_⟩⟩
  · intro m hm
    by_cases h : mc.CreationTimestamp.IsZero = true
    · simp [h] at hm
    · simp [h] at hm
      subst hm
      rfl
  · intro m hm
    simp at hm
    subst hm
    rfl
  · intro m hm
    simp at hm
    subst hm
    rfl

/-- C9: for the cluster `c1` with a non-zero creation timestamp `T0`, the labels vendor
`aws` and cloud `public`, the Kubernetes version `1.25`, and a ClusterDeployment lookup for
`c1` that reports not-found, running the three generators in order yields exactly one
created sample with value `T0` in epoch seconds, one labels sample classified `imported`
with value 1, and one info sample with value 1. -/
theorem end_to_end (client : Client) (T0 : Time) (labels : GoMap) (w : World)
    (hT : T0.IsZero = false)
    (hvendor : labels.index "vendor" = "aws") (hcloud : labels.index "cloud" = "public")
    (hnf : IsNotFound (client cdGVR "c1" "c1").err = true) :
    ∃ fams w1,
      generateInOrder (getManagedClusterMetricFamilies client)
        (Object.managedCluster
          { Name := "c1", CreationTimestamp := T0, Labels := labels,
            Status := { Version := { Kubernetes := "1.25" } } }) w = some (fams, w1) ∧
      fams.map (fun fam => samplesOf w1 fam.Metrics) =
        [ some [{ LabelKeys := ["managedcluster"], LabelValues := ["c1"],
                  Value := float64OfInt64 T0.Unix }],
          some [{ LabelKeys := ["managedcluster", "vendor", "cloud", "created_via", "version"],
                  LabelValues := ["c1", "aws", "public", "imported", "1.25"],
                  Value := 1 }],
          some [{ LabelKeys := ["managedcluster", "vendor", "cloud", "version"],
                  LabelValues := ["c1", "aws", "public", "1.25"],
                  Value := 1 }] ] := by
  simp only [getManagedClusterMetricFamilies, generateInOrder]
  rw [wrap_createdFunc_nonzero _ _ hT]
  simp only [wrap_labelsFunc, wrap_infoFunc]
  refine ⟨_, _, rfl, ?_⟩
  simp [samplesOf, World.deref, createdSample, labelsSample, infoSample, hvendor, hcloud, hnf,
    List.getElem?_append_left, List.getElem?_append_right]
  refine ⟨?_, ?_, ?_⟩
  · rw [List.getElem_append_right (Nat.le_refl _)]
    simp
  · rw [List.getElem_append_right (Nat.le_add_right _ _)]
    simp
  · rw [List.getElem_append_right (Nat.le_add_right _ _)]
    simp

/-- C9, on the example cluster (created 2022-11-02, 1667347200 in epoch seconds). -/
theorem end_to_end_witness :
    ∃ fams w1,
      generateInOrder (getManagedClusterMetricFamilies notFoundClient)
        (Object.managedCluster exampleCluster) emptyWorld = some (fams, w1) ∧
      fams.map (fun fam => samplesOf w1 fam.Metrics) =
        [ some [{ LabelKeys := ["managedcluster"], LabelValues := ["c1"],
                  Value := float64OfInt64 1667347200 }],
          some [{ LabelKeys := ["managedcluster", "vendor", "cloud", "created_via", "version"],
                  LabelValues := ["c1", "aws", "public", "imported", "1.25"],
                  Value := 1 }],
          some [{ LabelKeys := ["managedcluster", "vendor", "cloud", "version"],
                  LabelValues := ["c1", "aws", "public", "1.25"],
                  Value := 1 }] ] :=
  end_to_end notFoundClient { sec := 63802944000, nsec := 0 }
    (some [("vendor", "aws"), ("cloud", "public")]) emptyWorld rfl rfl rfl rfl

/-- C2: every sample emitted by `wrapManagedClusterFunc f`, for every inner generator
`f`, has `managedcluster` as its first label key and the name of the cluster as its first
label value; in particular, for every cluster and every lookup outcome, each of the three
families returns, and every sample it emits has them. -/
theorem identity_label_first :
    (∀ (f : InnerFunc) (mc : ManagedCluster) (w : World) (ms : List Metric),
      emitted (wrapManagedClusterFunc f) (Object.managedCluster mc) w = some ms →
      ∀ m ∈ ms, m.LabelKeys[0]? = some "managedcluster" ∧ m.LabelValues[0]? = some mc.Name) ∧
    (∀ (client : Client) (mc : ManagedCluster) (w : World),
      ∀ g ∈ getManagedClusterMetricFamilies client,
        ∃ ms, emitted g.GenerateFunc (Object.managedCluster mc) w = some ms ∧
          ∀ m ∈ ms, m.LabelKeys[0]? = some "managedcluster" ∧
            m.LabelValues[0]? = some mc.Name) := by
  have general : ∀ (f : InnerFunc) (mc : ManagedCluster) (w : World) (ms : List Metric),
      emitted (wrapManagedClusterFunc f) (Object.managedCluster mc) w = some ms →
      ∀ m ∈ ms, m.LabelKeys[0]? = some "managedcluster" ∧
        m.LabelValues[0]? = some mc.Name := by
    intro f mc w ms h m hm
    obtain ⟨a, m0, k, _, _, rfl⟩ := wrap_sample f mc w ms h m hm
    rw [withIdentity_iterate_keys, withIdentity_iterate_values]
    simp [List.replicate_succ]
  refine ⟨general, ?_⟩
  intro client mc w g hg
  obtain ⟨ms, hms⟩ := families_emit client mc w g hg
  obtain ⟨f, hf⟩ := families_wrapped client g hg
  refine ⟨ms, hms, ?_⟩
  rw [hf] at hms
  exact general f mc w ms hms

/-- C2, on an inner generator that returns the same metric twice. -/
theorem identity_label_first_witness :
    emitted (wrapManagedClusterFunc sharedFunc) (Object.managedCluster exampleCluster)
        emptyWorld =
      some [{ LabelKeys := ["managedcluster", "managedcluster", "k"],
              LabelValues := ["c1", "c1", "v"], Value := 7 },
            { LabelKeys := ["managedcluster", "managedcluster", "k"],
              LabelValues := ["c1", "c1", "v"], Value := 7 }] ∧
    (["managedcluster", "managedcluster", "k"][0]? = some "managedcluster" ∧
      ["c1", "c1", "v"][0]? = some exampleCluster.Name) :=
  ⟨by decide,
    identity_label_first.1 sharedFunc exampleCluster emptyWorld
      [{ LabelKeys := ["managedcluster", "managedcluster", "k"],
         LabelValues := ["c1", "c1", "v"], Value := 7 },
       { LabelKeys := ["managedcluster", "managedcluster", "k"],
         LabelValues := ["c1", "c1", "v"], Value := 7 }] (by decide)
      { LabelKeys := ["managedcluster", "managedcluster", "k"],
        LabelValues := ["c1", "c1", "v"], Value := 7 }
      (List.mem_cons_self _ _)⟩

/-- C7: for every cluster and every lookup outcome, each of the three families returns
and every sample it emits has as many label keys as label values; and for every inner
generator whose metrics have as many keys as values, so has every sample of
`wrapManagedClusterFunc f`. -/
theorem label_lengths_agree :
    (∀ (client : Client) (mc : ManagedCluster) (w : World),
      ∀ g ∈ getManagedClusterMetricFamilies client,
        ∃ ms, emitted g.GenerateFunc (Object.managedCluster mc) w = some ms ∧
          ∀ m ∈ ms, m.LabelKeys.length = m.LabelValues.length) ∧
    (∀ (f : InnerFunc) (mc : ManagedCluster) (w : World),
      (∀ p ∈ (f mc w).1.Metrics, ∀ m0, (f mc w).2.deref p = some m0 →
        m0.LabelKeys.length = m0.LabelValues.length) →
      ∀ ms, emitted (wrapManagedClusterFunc f) (Object.managedCluster mc) w = some ms →
        ∀ m ∈ ms, m.LabelKeys.length = m.LabelValues.length) := by
  have general : ∀ (f : InnerFunc) (mc : ManagedCluster) (w : World),
      (∀ p ∈ (f mc w).1.Metrics, ∀ m0, (f mc w).2.deref p = some m0 →
        m0.LabelKeys.length = m0.LabelValues.length) →
      ∀ ms, emitted (wrapManagedClusterFunc f) (Object.managedCluster mc) w = some ms →
        ∀ m ∈ ms, m.LabelKeys.length = m.LabelValues.length := by
    intro f mc w hf ms h m hm
    obtain ⟨a, m0, k, ha, hget, rfl⟩ := wrap_sample f mc w ms h m hm
    have h0 := hf (some a) ha m0 (by simpa [World.deref] using hget)
    rw [withIdentity_iterate_keys, withIdentity_iterate_values]
    simp [h0]
  refine ⟨?_, general⟩
  intro client mc w g hg
  simp only [getManagedClusterMetricFamilies, List.mem_cons, List.mem_singleton,
    List.not_mem_nil, or_false] at hg
  rcases hg with rfl | rfl | rfl
  · refine ⟨_, emitted_created mc w, ?_⟩
    intro m hm
    by_cases h : mc.CreationTimestamp.IsZero = true
    · simp [h] at hm
    · simp [h] at hm
      subst hm
      rfl
  · refine ⟨_, emitted_labels client mc w, ?_⟩
    intro m hm
    simp at hm
    subst hm
    rfl
  · refine ⟨_, emitted_info mc w, ?_⟩
    intro m hm
    simp at hm
    subst hm
    rfl

/-- C7, on an inner generator that returns one metric with one key and one value. -/
theorem label_lengths_agree_witness :
    emitted (wrapManagedClusterFunc plainFunc) (Object.managedCluster exampleCluster)
        emptyWorld =
      some [{ LabelKeys := ["managedcluster", "k"], LabelValues := ["c1", "v"], Value := 7 }] ∧
    ["managedcluster", "k"].length = ["c1", "v"].length :=
  ⟨by decide,
    label_lengths_agree.2 plainFunc exampleCluster emptyWorld
      (by
        intro p hp m0 hm0
        have hp1 : p = some 0 := by simpa [plainFunc, World.alloc, emptyWorld] using hp
        subst hp1
        have : m0 = { LabelKeys := ["k"], LabelValues := ["v"], Value := 7 } := by
          simpa [plainFunc, World.alloc, emptyWorld, World.deref] using hm0.symm
        subst this
        rfl)
      [{ LabelKeys := ["managedcluster", "k"], LabelValues := ["c1", "v"], Value := 7 }]
      (by decide)
      { LabelKeys := ["managedcluster", "k"], LabelValues := ["c1", "v"], Value := 7 }
      (List.mem_cons_self _ _)⟩

/-- C10 (as amended): for every inner generator `f` whose returned pointers are pairwise
distinct addresses of allocated metrics, `wrapManagedClusterFunc f` returns the family
of `f` (the same pointers in the same order); each of its samples is the sample of `f`
with `managedcluster` put before the label keys and the cluster name before the label
values, the value unchanged; and nothing else changes: no lookup is added and every other
metric on the heap is left as it was. -/
theorem wrap_frame (f : InnerFunc) (mc : ManagedCluster) (w : World)
    (hnodup : (f mc w).1.Metrics.Nodup)
    (hvalid : ∀ p ∈ (f mc w).1.Metrics, ∃ a, p = some a ∧ a < (f mc w).2.heap.length) :
    ∃ ms0 w2, samplesOf (f mc w).2 (f mc w).1.Metrics = some ms0 ∧
      wrapManagedClusterFunc f (Object.managedCluster mc) w = some ((f mc w).1, w2) ∧
      emitted (wrapManagedClusterFunc f) (Object.managedCluster mc) w =
        some (ms0.map (fun m =>
          { LabelKeys := "managedcluster" :: m.LabelKeys,
            LabelValues := mc.Name :: m.LabelValues,
            Value := m.Value })) ∧
      w2.calls = (f mc w).2.calls ∧
      w2.heap.length = (f mc w).2.heap.length ∧
      ∀ a, some a ∉ (f mc w).1.Metrics → w2.heap[a]? = (f mc w).2.heap[a]? := by
  obtain ⟨ms0, hms0⟩ := samplesOf_isSome (f mc w).2 (f mc w).1.Metrics hvalid
  obtain ⟨heap1, hloop⟩ := prependLabels_isSome mc.Name (f mc w).1.Metrics (f mc w).2.heap hvalid
  have hwrap : wrapManagedClusterFunc f (Object.managedCluster mc) w =
      some ((f mc w).1, { (f mc w).2 with heap := heap1 }) := by
    simp [wrapManagedClusterFunc, hloop]
  have hspec := prependLabels_spec mc.Name _ _ _ hloop
  have hderef : ∀ p ∈ (f mc w).1.Metrics,
      World.deref { (f mc w).2 with heap := heap1 } p =
        ((f mc w).2.deref p).map (withIdentity mc.Name) := by
    intro p hp
    obtain ⟨a, rfl, _⟩ := hvalid p hp
    simp only [World.deref]
    have hc : List.count (some a) (f mc w).1.Metrics = 1 := by
      convert List.count_eq_one_of_mem hnodup hp
    rw [hspec a, hc]
    rfl
  have hmap := (samplesOf_eq_some_iff _ _ _).1 hms0
  have hsamples : samplesOf { (f mc w).2 with heap := heap1 } (f mc w).1.Metrics =
      some (ms0.map (withIdentity mc.Name)) := by
    rw [samplesOf_eq_some_iff, List.map_congr_left hderef]
    have : (fun p => ((f mc w).2.deref p).map (withIdentity mc.Name)) =
        (Option.map (withIdentity mc.Name)) ∘ (f mc w).2.deref := rfl
    rw [this, ← List.map_map, hmap]
    simp
  refine ⟨ms0, _, hms0, hwrap, ?_, rfl, ?_, ?_⟩
  · simp only [emitted, hwrap, hsamples]
    rfl
  · have hlen : ∀ (ps : List Ptr) (h0 h1 : List Metric),
        prependLabels mc.Name ps h0 = some h1 → h1.length = h0.length := by
      intro ps
      induction ps with
      | nil =>
        intro h0 h1 h
        simp [prependLabels] at h
        rw [h]
      | cons p ps ih =>
        intro h0 h1 h
        cases p with
        | none => simp [prependLabels] at h
        | some a =>
          simp only [prependLabels] at h
          cases hm : h0[a]? with
          | none => simp [hm] at h
          | some m =>
            simp only [hm] at h
            simpa using ih _ _ h
    exact hlen _ _ _ hloop
  · intro a ha
    show heap1[a]? = _
    rw [hspec a, List.count_eq_zero_of_not_mem ha]
    simp

/-- C10 as amended, on an inner generator that returns one fresh metric. -/
theorem wrap_frame_witness :
    ∃ ms0 w2, samplesOf (plainFunc exampleCluster emptyWorld).2
        (plainFunc exampleCluster emptyWorld).1.Metrics = some ms0 ∧
      wrapManagedClusterFunc plainFunc (Object.managedCluster exampleCluster) emptyWorld =
        some ((plainFunc exampleCluster emptyWorld).1, w2) ∧
      emitted (wrapManagedClusterFunc plainFunc) (Object.managedCluster exampleCluster)
          emptyWorld =
        some (ms0.map (fun m =>
          { LabelKeys := "managedcluster" :: m.LabelKeys,
            LabelValues := exampleCluster.Name :: m.LabelValues,
            Value := m.Value })) ∧
      w2.calls = (plainFunc exampleCluster emptyWorld).2.calls ∧
      w2.heap.length = (plainFunc exampleCluster emptyWorld).2.heap.length ∧
      ∀ a, some a ∉ (plainFunc exampleCluster emptyWorld).1.Metrics →
        w2.heap[a]? = (plainFunc exampleCluster emptyWorld).2.heap[a]? :=
  wrap_frame plainFunc exampleCluster emptyWorld (by decide) (by decide)

/-- C10 as stated fails: an inner generator that returns the same metric pointer twice
gets the identity label prepended twice, so each emitted sample carries two added keys
and two added values instead of one; and on an inner generator that returns a nil
pointer the wrapper panics. -/
theorem wrap_frame_fails_on_shared_pointer :
    samplesOf (sharedFunc exampleCluster emptyWorld).2
        (sharedFunc exampleCluster emptyWorld).1.Metrics =
      some [{ LabelKeys := ["k"], LabelValues := ["v"], Value := 7 },
            { LabelKeys := ["k"], LabelValues := ["v"], Value := 7 }] ∧
    emitted (wrapManagedClusterFunc sharedFunc) (Object.managedCluster exampleCluster)
        emptyWorld =
      some [{ LabelKeys := ["managedcluster", "managedcluster", "k"],
              LabelValues := ["c1", "c1", "v"], Value := 7 },
            { LabelKeys := ["managedcluster", "managedcluster", "k"],
              LabelValues := ["c1", "c1", "v"], Value := 7 }] ∧
    wrapManagedClusterFunc nilFunc (Object.managedCluster exampleCluster) emptyWorld = none ∧
    ¬ (∀ (f : InnerFunc) (mc : ManagedCluster) (w : World),
        ∃ ms0, samplesOf (f mc w).2 (f mc w).1.Metrics = some ms0 ∧
          emitted (wrapManagedClusterFunc f) (Object.managedCluster mc) w =
            some (ms0.map (fun m =>
              { LabelKeys := "managedcluster" :: m.LabelKeys,
                LabelValues := mc.Name :: m.LabelValues,
                Value := m.Value }))) := by
  refine ⟨by decide, by decide, by decide, ?_⟩
  intro h
  obtain ⟨ms0, h0, h1⟩ := h sharedFunc exampleCluster emptyWorld
  have e0 : ms0 = [{ LabelKeys := ["k"], LabelValues := ["v"], Value := 7 },
      { LabelKeys := ["k"], LabelValues := ["v"], Value := 7 }] := by
    have : samplesOf (sharedFunc exampleCluster emptyWorld).2
        (sharedFunc exampleCluster emptyWorld).1.Metrics =
      some [{ LabelKeys := ["k"], LabelValues := ["v"], Value := 7 },
            { LabelKeys := ["k"], LabelValues := ["v"], Value := 7 }] := by decide
    rw [this] at h0
    exact (Option.some.inj h0).symm
  subst e0
  revert h1
  decide

end Collectors
